import Mathlib

/-!
Verification of the Concierge memory layer (`src/api/memory.py`).

The Python module is shallowly embedded here.  Python strings are modelled
as `List Char` (`Str`); every string primitive the source uses
(`split`, `strip`, `lower`, substring containment, `startswith`, ...)
is re-implemented structurally below so that concrete inputs evaluate
inside the kernel.  Python `int(...)` / `float(...)` are modelled over
`Int` and the exact fraction type `Frac` (exact rationals stand in for
IEEE doubles; the difference is noted where it could matter).
File-system effects are made explicit:
functions that persist data return the persisted collection as part of
their result.
-/

set_option maxRecDepth 100000

namespace Concierge

/-- Python strings, modelled as lists of characters. -/
abbrev Str := List Char

/-- Convert a Lean string literal to the `Str` model. -/
def str (s : String) : Str := s.data

/-- Python `str.lower()` (per-character lowercasing; the code only feeds it
ASCII, where this matches Python). -/
def lowerS (s : Str) : Str := s.map Char.toLower

/-- Python `needle in hay` substring containment. -/
def containsSubS (hay needle : Str) : Bool :=
  match hay with
  | [] => needle.isEmpty
  | _ :: rest => needle.isPrefixOf hay || containsSubS rest needle

/-- Python `hay.startswith(needle)`. -/
def startsWithS (s needle : Str) : Bool := needle.isPrefixOf s

/-- Python `hay.endswith(needle)`. -/
def endsWithS (s needle : Str) : Bool := needle.reverse.isPrefixOf s.reverse

/-- Python `c in s` single-character containment. -/
def containsCharS (s : Str) (c : Char) : Bool := s.contains c

/-- Python `s.strip()` (the source only strips ASCII whitespace). -/
def trimS (s : Str) : Str :=
  ((s.dropWhile Char.isWhitespace).reverse.dropWhile Char.isWhitespace).reverse

/-- Python `s.strip(chars)`: remove any of `cs` from both ends. -/
def stripCharsS (cs : List Char) (s : Str) : Str :=
  ((s.dropWhile cs.contains).reverse.dropWhile cs.contains).reverse

/-- Helper for `splitOnS`: fuel-driven scan (fuel bounds the input length,
each step consumes at least one character). -/
def splitOnAuxS (sep : Str) : Nat → Str → Str → List Str
  | 0, s, acc => [acc.reverse ++ s]
  | fuel + 1, s, acc =>
    match s with
    | [] => [acc.reverse]
    | c :: rest =>
      if sep.isPrefixOf (c :: rest) then
        acc.reverse :: splitOnAuxS sep fuel (List.drop sep.length (c :: rest)) []
      else
        splitOnAuxS sep fuel rest (c :: acc)

/-- Python `s.split(sep)` for a non-empty separator (greedy left-to-right,
keeps empty pieces). -/
def splitOnS (sep s : Str) : List Str :=
  if sep.isEmpty then [s] else splitOnAuxS sep (s.length + 1) s []

/-- Python `s.replace(pat, repl)` (replace every occurrence), via
`repl.join(s.split(pat))`. -/
def intercalateS (sep : Str) : List Str → Str
  | [] => []
  | [x] => x
  | x :: y :: rest => x ++ sep ++ intercalateS sep (y :: rest)

def replaceS (s pat repl : Str) : Str :=
  if pat.isEmpty then s else intercalateS repl (splitOnS pat s)

/-- Helper for whitespace splitting. -/
def splitPredAuxS (p : Char → Bool) : Str → Str → List Str
  | [], acc => [acc.reverse]
  | c :: rest, acc =>
    if p c then acc.reverse :: splitPredAuxS p rest []
    else splitPredAuxS p rest (c :: acc)

/-- Python `s.split()` (no argument): split on whitespace runs, dropping
empty pieces. -/
def splitWsS (s : Str) : List Str :=
  (splitPredAuxS Char.isWhitespace s []).filter (fun p => !p.isEmpty)

/-- Decimal-digit parse of a non-empty all-digit string. -/
def toNatS? (s : Str) : Option Nat :=
  if s.isEmpty then none
  else if s.all Char.isDigit then
    some (s.foldl (fun n c => n * 10 + (c.toNat - 48)) 0)
  else none

/-- Python `int(s)` on the token shapes the source can feed it (optional
sign, decimal digits; Python extras such as underscores or unicode digits
are out of scope of the data this code produces). -/
def pyIntS? (s : Str) : Option Int :=
  let t := trimS s
  if startsWithS t (str "-") then (toNatS? (t.drop 1)).map (fun n => -(n : Int))
  else if startsWithS t (str "+") then (toNatS? (t.drop 1)).map (fun n => (n : Int))
  else (toNatS? t).map (fun n => (n : Int))

/-- Python `float(s)` on plain decimal literals (`92`, `85.5`, `.5`, `1.`),
modelled with exact fractions (numerator over a power of ten); exponent
notation is not produced by the data this code parses.  The result is the
pair (numerator, denominator) consumed by `Frac` below. -/
def pyFloatS? (s : Str) : Option (Int × Int) :=
  let t := trimS s
  let sgn : Int := if startsWithS t (str "-") then -1 else 1
  let body := if startsWithS t (str "-") || startsWithS t (str "+") then t.drop 1 else t
  match splitOnS (str ".") body with
  | [i] => (toNatS? i).map (fun n => (sgn * (n : Int), 1))
  | [i, f] =>
    if i.isEmpty && f.isEmpty then none
    else
      let ip := if i.isEmpty then some 0 else toNatS? i
      let fp := if f.isEmpty then some 0 else toNatS? f
      match ip, fp with
      | some a, some b =>
        some (sgn * ((a : Int) * (10 : Int) ^ f.length + (b : Int)), (10 : Int) ^ f.length)
      | _, _ => none
  | _ => none

/-- Python `a < b` on strings: lexicographic comparison by code point. -/
def ltS : Str → Str → Bool
  | [], [] => false
  | [], _ :: _ => true
  | _ :: _, [] => false
  | a :: as, b :: bs => if a < b then true else if b < a then false else ltS as bs

/-- Python `a >= b` on strings. -/
def geS (a b : Str) : Bool := !(ltS a b)

/-- Python `a <= b` on strings. -/
def leS (a b : Str) : Bool := !(ltS b a)

/-- Decimal rendering of a natural number (fuel-driven). -/
def natToStrAux : Nat → Nat → Str
  | 0, _ => []
  | fuel + 1, n =>
    if n < 10 then [Char.ofNat (48 + n)]
    else natToStrAux fuel (n / 10) ++ [Char.ofNat (48 + n % 10)]

def natToStr (n : Nat) : Str := natToStrAux (n + 1) n

def intToStr (n : Int) : Str :=
  if n < 0 then str "-" ++ natToStr n.natAbs else natToStr n.natAbs

/-- The apostrophe character (U+0027), used when rendering Python `dict`s. -/
def sq : Str := [Char.ofNat 39]

/-!
Exact fractions stand in for Python floats.  They are kept unnormalized so
that every operation is plain integer arithmetic the kernel can evaluate.
Every fraction the embedded code builds has a positive denominator (all
divisions in the source are by positive counts), which the comparison
operations below rely on.
-/

structure Frac where
  num : Int
  den : Int
deriving DecidableEq

def Frac.ofNat (n : Nat) : Frac := ⟨(n : Int), 1⟩

def Frac.add (a b : Frac) : Frac := ⟨a.num * b.den + b.num * a.den, a.den * b.den⟩

def Frac.sub (a b : Frac) : Frac := ⟨a.num * b.den - b.num * a.den, a.den * b.den⟩

def Frac.mul (a b : Frac) : Frac := ⟨a.num * b.num, a.den * b.den⟩

def Frac.div (a b : Frac) : Frac :=
  if b.num < 0 then ⟨-(a.num * b.den), a.den * (-b.num)⟩ else ⟨a.num * b.den, a.den * b.num⟩

def Frac.lt (a b : Frac) : Bool := a.num * b.den < b.num * a.den

def Frac.le (a b : Frac) : Bool := a.num * b.den ≤ b.num * a.den

def Frac.abs (a : Frac) : Frac := ⟨|a.num|, a.den⟩

/-- Round to the nearest integer (half up); stands in for Python float→int
rendering, whose half-even tie handling the digest texts never exercise on
exact halves of interest. -/
def Frac.round (a : Frac) : Int := Int.fdiv (2 * a.num + a.den) (2 * a.den)

/-- Python `f"{x:.0f}"` on the non-negative values the digests format. -/
def fmt0 (a : Frac) : Str := intToStr a.round

/-- Python `f"{x:.1f}"` on non-negative values. -/
def fmt1 (a : Frac) : Str :=
  let n := (Frac.round (a.mul ⟨10, 1⟩)).toNat
  natToStr (n / 10) ++ str "." ++ natToStr (n % 10)

/-!  Data model (`memory.py` stores JSON dictionaries; the optional keys
become `Option` fields). -/

/-- One entry of `memories.json`: `{"text": ..., "timestamp": ...}` plus
optional `source` and `tags`.  A missing `tags` key and `tags = []` are
indistinguishable to every reader (`m.get("tags", [])`), so `tags` is a
plain list here. -/
structure MemoryEntry where
  text : Str
  timestamp : Str := []
  source : Option Str := none
  tags : List Str := []
deriving DecidableEq

/-- One entry of `conversations.json`. -/
structure ConversationEntry where
  user : Str
  assistant : Str
  timestamp : Str := []
deriving DecidableEq

/-- One entry of `digests.json` as built by `compute_digests`. -/
structure Digest where
  text : Str
  type : Str
  factory : Option Str := none
  timestamp : Str
deriving DecidableEq

/-- The transient record `compute_digests` decodes from one
extraction-tagged memory (a Python dict whose keys are set only when the
corresponding segment parses). -/
structure ExtractionRecord where
  text : Str
  tags : List Str
  timestamp : Str
  client : Option Str := none
  factory : Option Str := none
  status : Option Str := none
  lines : Option Int := none
  glasses : Option (List Str) := none
  confidence : Option Frac := none
  created_date : Option Str := none
  matched_rows : Option Int := none
deriving DecidableEq

/-- The clock readings `compute_digests` takes from `datetime.utcnow()`:
the code uses `now` only through `now.isoformat()`,
`(now - 7d).strftime("%Y-%m-%d")` and `(now - 14d).strftime("%Y-%m-%d")`,
so the instant is embedded as those three strings (`week_ago` at line 323
and `week_ago_str` at line 347 are the same expression and hence the same
value). -/
structure Clock where
  iso : Str
  weekAgo : Str
  twoWeeksAgo : Str
deriving DecidableEq

/-!  Record store (`load_memories`, `forget`, `save_conversation`). -/

/-- State of one on-disk JSON store as `load_*` sees it: the file may be
absent (`os.path.exists` false), present but malformed (`json.load`
raises), or present with parsed content. -/
inductive StoreFile (α : Type) where
  | absent : StoreFile α
  | corrupt : Str → StoreFile α
  | stored : α → StoreFile α
deriving DecidableEq

/-- `load_memories`: missing file → `[]`; existing file → `json.load`,
whose exception is not caught and propagates to the caller. -/
def load_memories : StoreFile (List MemoryEntry) → Except Str (List MemoryEntry)
  | .absent => .ok []
  | .corrupt e => .error e
  | .stored v => .ok v

/-- The keep-predicate of `forget`:
`query.lower() not in m["text"].lower()`. -/
def forgetKeeps (query : Str) (m : MemoryEntry) : Bool :=
  !(containsSubS (lowerS m.text) (lowerS query))

/-- `forget(query)`: first component is the returned count, second is the
persisted collection afterwards (`save_memories` runs only when
`forgotten > 0`; otherwise the store keeps its previous content). -/
def forget (mems : List MemoryEntry) (query : Str) : Nat × List MemoryEntry :=
  let remaining := mems.filter (forgetKeeps query)
  let forgotten := mems.length - remaining.length
  (forgotten, if forgotten > 0 then remaining else mems)

/-- `save_conversation`: append one entry, then truncate to the last 200
(`convos[-200:]`) when over the cap. -/
def save_conversation (convos : List ConversationEntry)
    (userMsg assistantMsg nowTs : Str) : List ConversationEntry :=
  let convos := convos ++ [{ user := userMsg, assistant := assistantMsg, timestamp := nowTs }]
  if convos.length > 200 then convos.drop (convos.length - 200) else convos

/-!  Search (`search_memories`). -/

/-- Stable insertion into a list sorted by the strict priority `gt`
(`gt a b` = "a must stay strictly before b"). -/
def stableInsert (gt : α → α → Bool) (x : α) : List α → List α
  | [] => [x]
  | y :: ys => if gt y x then y :: stableInsert gt x ys else x :: y :: ys

/-- Stable sort by the strict priority `gt`: ties keep input order.  A
stable sort is uniquely determined by its comparison and input order, so
this models Python `list.sort` / `sorted` (Timsort) exactly on every use
in the source. -/
def stableSort (gt : α → α → Bool) (l : List α) : List α :=
  l.foldr (stableInsert gt) []

/-- The score loop body of `search_memories` for one entry. -/
def scoreEntry (tokens : List Str) (m : MemoryEntry) : Nat :=
  let text := lowerS m.text
  let tags := m.tags.map lowerS
  tokens.foldl
    (fun score token =>
      let score := if containsSubS text token then score + 1 else score
      if tags.contains token then score + 2 else score)
    0

/-- `search_memories(query, limit)`: score, drop zero-score entries,
stable-sort by score descending (`scored.sort(key=lambda x: x[0],
reverse=True)`), return the first `limit`. -/
def search_memories (mems : List MemoryEntry) (query : Str) (limit : Nat) :
    List MemoryEntry :=
  let tokens := splitWsS (lowerS query)
  let scored := mems.filterMap (fun m =>
    let score := scoreEntry tokens m
    if score > 0 then some (score, m) else none)
  let sorted := stableSort (fun a b => decide (b.1 < a.1)) scored
  (sorted.take limit).map (fun p => p.2)

/-!  Extraction decoder: the per-segment `if/elif` chain of
`compute_digests` (memory.py lines 192-222) followed by the
factory-from-tags fallback (lines 225-229). -/

/-- One iteration of `for part in text.split("|")`. -/
def parseSegment (record : ExtractionRecord) (rawPart : Str) : ExtractionRecord :=
  let part := trimS rawPart
  if startsWithS part (str "client=") then
    { record with
      client := some (trimS ((splitOnS (str "(")
        ((splitOnS (str "client=") part).getD 1 [])).getD 0 [])) }
  else if startsWithS part (str "[") && endsWithS part (str "]") then
    { record with factory := some (stripCharsS (str "[]") part) }
  else if containsCharS part '(' && startsWithS part (str "[") then
    -- pieces = part.split("]"); `if pieces:` is always true (split never
    -- returns an empty list), so the assignment always happens
    { record with factory := some (stripCharsS (str "[ ") ((splitOnS (str "]") part).getD 0 [])) }
  else if startsWithS part (str "status=") then
    { record with status := some (trimS ((splitOnS (str "=") part).getD 1 [])) }
  else if containsSubS part (str "line(s)") then
    match splitWsS part with
    | [] => record
    | tok :: _ =>
      match pyIntS? tok with
      | some n => { record with lines := some n }
      | none => record
  else if startsWithS part (str "glass:") then
    { record with
      glasses := some ((splitOnS (str ",") (replaceS part (str "glass:") [])).map trimS) }
  else if startsWithS part (str "conf=") then
    match pyFloatS? (replaceS (replaceS part (str "conf=") []) (str "%") []) with
    | some v => { record with confidence := some ((Frac.mk v.1 v.2).div ⟨100, 1⟩) }
    | none => record
  else if startsWithS part (str "created=") then
    { record with created_date := some (trimS ((splitOnS (str "=") part).getD 1 [])) }
  else if containsSubS part (str "row(s) matched") then
    match splitWsS part with
    | [] => record
    | tok :: _ =>
      match pyIntS? tok with
      | some n => { record with matched_rows := some n }
      | none => record
  else record

/-- Tags that never name a factory in the tag-fallback. -/
def reservedTags : List Str :=
  [str "extraction", str "verified", str "extracted", str "rejected", str "unknown"]

/-- Decode one extraction-tagged memory into an `ExtractionRecord`. -/
def parseRecord (m : MemoryEntry) : ExtractionRecord :=
  let base : ExtractionRecord := { text := m.text, tags := m.tags, timestamp := m.timestamp }
  let record := (splitOnS (str "|") m.text).foldl parseSegment base
  if record.factory.isNone then
    match m.tags.find? (fun t => !(reservedTags.contains t)) with
    | some t => { record with factory := some t }
    | none => record
  else record

/-!  `collections.Counter` and dict-of-set helpers.  A `Counter` keeps its
keys in first-insertion order, as Python dicts do. -/

abbrev Counter := List (Str × Nat)

def counterAdd (c : Counter) (k : Str) : Counter :=
  if c.any (fun p => p.1 == k) then
    c.map (fun p => if p.1 == k then (p.1, p.2 + 1) else p)
  else c ++ [(k, 1)]

def counterGet (c : Counter) (k : Str) : Nat :=
  ((c.find? (fun p => p.1 == k)).map (fun p => p.2)).getD 0

def counterKeys (c : Counter) : List Str := c.map (fun p => p.1)

def counterTotal (c : Counter) : Nat := (c.map (fun p => p.2)).sum

/-- `Counter(iterable)`: counts in first-encounter order. -/
def counterOf (keys : List Str) : Counter := keys.foldl counterAdd []

/-- `Counter.most_common(n)`: count-descending, ties in insertion order
(Python documents `most_common` as equivalent to a stable reverse-sorted
list of items). -/
def mostCommon (c : Counter) (n : Nat) : Counter :=
  (stableSort (fun a b => decide (b.2 < a.2)) c).take n

/-- First-occurrence deduplication; stands in for building a Python `set`
wherever the code only uses membership and size.  Where the source
iterates over a set (whose order is hash-dependent but fixed within one
process), this model fixes first-occurrence order instead; the only
visible effect is the order of tie-breaking in a few rendered digest
lines. -/
def dedupS (l : List Str) : List Str :=
  l.foldl (fun acc g => if acc.contains g then acc else acc ++ [g]) []

/-- `s.add(g)` on a Python set modelled as a duplicate-free list. -/
def setAdd (s : List Str) (g : Str) : List Str :=
  if s.contains g then s else s ++ [g]

/-- Dict from client to a set of glass types. -/
abbrev GlassSets := List (Str × List Str)

/-- `d.setdefault(k, set()).update(gs)` with `gs` already deduplicated. -/
def dsetUpdate (d : GlassSets) (k : Str) (gs : List Str) : GlassSets :=
  if d.any (fun p => p.1 == k) then
    d.map (fun p =>
      if p.1 == k then (p.1, p.2 ++ gs.filter (fun g => !p.2.contains g)) else p)
  else d ++ [(k, gs)]

/-!  Digest engine: the twelve sections of `compute_digests`
(memory.py lines 233-528), one definition per accumulation loop and one
per emitted digest, assembled by `buildDigests` in source order. -/

/-- `r.get("created_date", "")[:10]`. -/
def recDate (r : ExtractionRecord) : Str := (r.created_date.getD []).take 10

/-- `r.get("client")` under Python truthiness (`if client:` /
`if not client:` treat both a missing key and `""` as absent). -/
def clientVal (r : ExtractionRecord) : Option Str :=
  match r.client with
  | some c => if c.isEmpty then none else some c
  | none => none

/-- `r.get("factory")` under Python truthiness (section 11). -/
def factoryVal (r : ExtractionRecord) : Option Str :=
  match r.factory with
  | some f => if f.isEmpty then none else some f
  | none => none

def statusOrUnknown (r : ExtractionRecord) : Str := r.status.getD (str "unknown")

def factoryOrUnknown (r : ExtractionRecord) : Str := r.factory.getD (str "unknown")

def glassesVal (r : ExtractionRecord) : List Str := r.glasses.getD []

/-- Section 1: overall summary. -/
def status_counts (records : List ExtractionRecord) : Counter :=
  counterOf (records.map statusOrUnknown)

def factory_counts (records : List ExtractionRecord) : Counter :=
  counterOf (records.map factoryOrUnknown)

def total_lines (records : List ExtractionRecord) : Int :=
  (records.map (fun r => r.lines.getD 0)).sum

/-- Rendering of `dict(counter)` inside an f-string:
`{'key': count, ...}` in insertion order. -/
def pyDictStr (c : Counter) : Str :=
  str "\x7b" ++
    intercalateS (str ", ")
      (c.map (fun p => sq ++ p.1 ++ sq ++ str ": " ++ natToStr p.2)) ++
    str "\x7d"

def overallDigest (records : List ExtractionRecord) (clock : Clock) : Digest :=
  { text := str "[DIGEST] Overall: " ++ natToStr records.length ++
      str " extractions ingested | Status: " ++ pyDictStr (status_counts records) ++
      str " | Factories: " ++ pyDictStr (factory_counts records) ++
      str " | Total measurement lines: " ++ intToStr (total_lines records)
    type := str "overall"
    timestamp := clock.iso }

/-- Section 2: `factory_clients` accumulation. -/
def factory_clients (records : List ExtractionRecord) : List (Str × Counter) :=
  records.foldl
    (fun fc r =>
      let factory := factoryOrUnknown r
      match clientVal r with
      | none => fc
      | some client =>
        if fc.any (fun p => p.1 == factory) then
          fc.map (fun p => if p.1 == factory then (p.1, counterAdd p.2 client) else p)
        else fc ++ [(factory, counterAdd [] client)])
    []

def topClientsDigests (records : List ExtractionRecord) (clock : Clock) : List Digest :=
  (factory_clients records).map (fun p =>
    let top := mostCommon p.2 15
    let client_lines := intercalateS (str ", ")
      (top.map (fun q => q.1 ++ str " (" ++ natToStr q.2 ++ str ")"))
    { text := str "[DIGEST] Top clients [" ++ p.1 ++ str "]: " ++ client_lines ++
        str " | Total unique clients: " ++ natToStr p.2.length
      type := str "top_clients"
      factory := some p.1
      timestamp := clock.iso })

/-- Section 3, loop body: `if date:` skips empty dates. -/
def dailyStep (d : Counter) (r : ExtractionRecord) : Counter :=
  let date := recDate r
  if date.isEmpty then d else counterAdd d date

/-- Section 3: daily volume counter. -/
def daily (records : List ExtractionRecord) : Counter :=
  records.foldl dailyStep []

def dailyVolumeDigests (records : List ExtractionRecord) (clock : Clock) : List Digest :=
  let d := daily records
  if d.isEmpty then []
  else
    let sorted_days := stableSort (fun a b => ltS a.1 b.1) d
    let trend_lines := intercalateS (str ", ")
      ((sorted_days.drop (sorted_days.length - 14)).map
        (fun p => p.1 ++ str ": " ++ natToStr p.2))
    [{ text := str "[DIGEST] Daily extraction volume (last 14d): " ++ trend_lines
       type := str "daily_volume"
       timestamp := clock.iso }]

/-- Section 4: glass-type frequency counter. -/
def glass_counter (records : List ExtractionRecord) : Counter :=
  records.foldl (fun c r => (glassesVal r).foldl counterAdd c) []

def glassTypesDigests (records : List ExtractionRecord) (clock : Clock) : List Digest :=
  let gc := glass_counter records
  if gc.isEmpty then []
  else
    let top_glass := mostCommon gc 20
    let glass_lines := intercalateS (str ", ")
      (top_glass.map (fun p => p.1 ++ str " (" ++ natToStr p.2 ++ str ")"))
    [{ text := str "[DIGEST] Top glass types: " ++ glass_lines
       type := str "glass_types"
       timestamp := clock.iso }]

/-- Section 5: matching quality (always emitted; `total > 0` holds in every
run that reaches it, since the extraction list is non-empty there). -/
def with_match (records : List ExtractionRecord) : Nat :=
  records.countP (fun r => decide (0 < r.matched_rows.getD 0))

def confs (records : List ExtractionRecord) : List Frac :=
  records.filterMap (fun r => r.confidence)

def avg_conf (records : List ExtractionRecord) : Frac :=
  let cs := confs records
  if cs.isEmpty then ⟨0, 1⟩
  else (cs.foldl Frac.add ⟨0, 1⟩).div ⟨(cs.length : Int), 1⟩

def matchingQualityDigest (records : List ExtractionRecord) (clock : Clock) : Digest :=
  let wm := with_match records
  let cs := confs records
  let pct := ((Frac.ofNat wm).div (Frac.ofNat records.length)).mul ⟨100, 1⟩
  { text := str "[DIGEST] Matching quality: " ++ natToStr wm ++ str "/" ++
      natToStr records.length ++ str " extractions matched (" ++ fmt1 pct ++
      str "%) | Avg confidence: " ++ fmt1 ((avg_conf records).mul ⟨100, 1⟩) ++
      str "% (across " ++ natToStr cs.length ++ str " scored extractions)"
    type := str "matching_quality"
    timestamp := clock.iso }

/-- Section 6, loop body. -/
def weeklyStep (wa : Str) (acc : Counter × Nat) (r : ExtractionRecord) : Counter × Nat :=
  let date := recDate r
  if geS date wa then
    let cnt := acc.2 + 1
    match clientVal r with
    | some client => (counterAdd acc.1 client, cnt)
    | none => (acc.1, cnt)
  else acc

/-- Section 6: weekly client counter and weekly record count. -/
def weeklyScan (records : List ExtractionRecord) (wa : Str) : Counter × Nat :=
  records.foldl (weeklyStep wa) ([], 0)

def weeklyClientsDigests (records : List ExtractionRecord) (clock : Clock) : List Digest :=
  let scan := weeklyScan records clock.weekAgo
  if scan.1.isEmpty then []
  else
    let top_weekly := mostCommon scan.1 15
    let weekly_lines := intercalateS (str ", ")
      (top_weekly.map (fun p => p.1 ++ str " (" ++ natToStr p.2 ++ str ")"))
    [{ text := str "[DIGEST] This week" ++ sq ++ str "s top clients (since " ++
         clock.weekAgo ++ str "): " ++ weekly_lines ++
         str " | Total extractions this week: " ++ natToStr scan.2
       type := str "weekly_clients"
       timestamp := clock.iso }]

/-- Section 7: one pass building `old_clients` (clients of records dated
strictly before `week_ago_str` — an absent date reads as `""`, which
compares before every real date) and `new_clients_this_week`. -/
def newClientsStep (wa : Str) (acc : List Str × Counter) (r : ExtractionRecord) :
    List Str × Counter :=
  let date := recDate r
  match clientVal r with
  | none => acc
  | some client =>
    if ltS date wa then (setAdd acc.1 client, acc.2)
    else if geS date wa then (acc.1, counterAdd acc.2 client)
    else acc

def newClientsScan (records : List ExtractionRecord) (wa : Str) :
    List Str × Counter :=
  records.foldl (newClientsStep wa) ([], [])

def emergingClients (records : List ExtractionRecord) (wa : Str) : Counter :=
  let scan := newClientsScan records wa
  scan.2.filter (fun p => !(scan.1.contains p.1))

def newClientsDigests (records : List ExtractionRecord) (clock : Clock) : List Digest :=
  let emerging := emergingClients records clock.weekAgo
  if emerging.isEmpty then []
  else
    let sorted_emerging := (stableSort (fun a b => decide (b.2 < a.2)) emerging).take 15
    let emerging_lines := intercalateS (str ", ")
      (sorted_emerging.map (fun p => p.1 ++ str " (" ++ natToStr p.2 ++ str " orders)"))
    [{ text := str "[INTELLIGENCE] New clients this week (not seen before " ++
         clock.weekAgo ++ str "): " ++ emerging_lines ++ str " | " ++
         natToStr emerging.length ++ str " new clients total"
       type := str "new_clients"
       timestamp := clock.iso }]

/-- Section 8: previous-week and current-week client counters
(records with an absent client or absent date are skipped). -/
def weekWindowStep (twa wa : Str) (acc : Counter × Counter) (r : ExtractionRecord) :
    Counter × Counter :=
  let date := recDate r
  match clientVal r with
  | none => acc
  | some client =>
    if date.isEmpty then acc
    else if leS twa date && ltS date wa then (counterAdd acc.1 client, acc.2)
    else if geS date wa then (acc.1, counterAdd acc.2 client)
    else acc

def weekWindowScan (records : List ExtractionRecord) (twa wa : Str) :
    Counter × Counter :=
  records.foldl (weekWindowStep twa wa) ([], [])

/-- Spike test `prev >= 3 and curr >= prev * 2` (exact in Python: both
sides are ints). -/
def spikeCond (prev curr : Nat) : Bool := 3 ≤ prev && prev * 2 ≤ curr

/-- Drop test `prev >= 3 and curr <= prev * 0.3`, modelled by the exact
rational `curr ≤ 3·prev/10`.  Python evaluates `prev * 0.3` in binary
floating point, which is marginally below `3·prev/10` whenever
`10·curr = 3·prev` could hold; no claim settled here depends on that
boundary (and the `elif` makes spike/drop exclusivity independent of it). -/
def dropCond (prev curr : Nat) : Bool := 3 ≤ prev && 10 * curr ≤ 3 * prev

def all_clients_both_weeks (prevC currC : Counter) : List Str :=
  dedupS (counterKeys prevC ++ counterKeys currC)

def spikesOf (prevC currC : Counter) : List (Str × Nat × Nat) :=
  (all_clients_both_weeks prevC currC).filterMap (fun c =>
    let prev := counterGet prevC c
    let curr := counterGet currC c
    if spikeCond prev curr then some (c, prev, curr) else none)

/-- The drop branch sits behind `elif`, so it is reached only when the
spike test failed. -/
def dropsOf (prevC currC : Counter) : List (Str × Nat × Nat) :=
  (all_clients_both_weeks prevC currC).filterMap (fun c =>
    let prev := counterGet prevC c
    let curr := counterGet currC c
    if !spikeCond prev curr && dropCond prev curr then some (c, prev, curr) else none)

def spikePct (p cu : Nat) : Str :=
  fmt0 ((((Frac.ofNat cu).div (Frac.ofNat p)).sub ⟨1, 1⟩).mul ⟨100, 1⟩)

def dropPct (p cu : Nat) : Str :=
  fmt0 (((Frac.mk 1 1).sub ((Frac.ofNat cu).div (Frac.ofNat p))).mul ⟨100, 1⟩)

def volumeSpikesDigests (records : List ExtractionRecord) (clock : Clock) : List Digest :=
  let scan := weekWindowScan records clock.twoWeeksAgo clock.weekAgo
  let spikes := spikesOf scan.1 scan.2
  if spikes.isEmpty then []
  else
    let spikes := stableSort (fun a b => decide (b.2.2 < a.2.2)) spikes
    let spike_lines := intercalateS (str ", ")
      ((spikes.take 10).map (fun s => s.1 ++ str " (" ++ natToStr s.2.1 ++ str "→" ++
        natToStr s.2.2 ++ str ", +" ++ spikePct s.2.1 s.2.2 ++ str "%)"))
    [{ text := str "[INTELLIGENCE] Volume spikes (2x+ week-over-week): " ++ spike_lines
       type := str "volume_spikes"
       timestamp := clock.iso }]

def volumeDropsDigests (records : List ExtractionRecord) (clock : Clock) : List Digest :=
  let scan := weekWindowScan records clock.twoWeeksAgo clock.weekAgo
  let drops := dropsOf scan.1 scan.2
  if drops.isEmpty then []
  else
    let drops := stableSort (fun a b => decide (b.2.1 < a.2.1)) drops
    let drop_lines := intercalateS (str ", ")
      ((drops.take 10).map (fun s => s.1 ++ str " (" ++ natToStr s.2.1 ++ str "→" ++
        natToStr s.2.2 ++ str ", -" ++ dropPct s.2.1 s.2.2 ++ str "%)"))
    [{ text := str "[INTELLIGENCE] Volume drops (70%+ decline week-over-week): " ++ drop_lines
       type := str "volume_drops"
       timestamp := clock.iso }]

/-- Section 9: `old_glasses` set and `new_glasses_this_week` counter (as in
section 7, a record with no date lands in the "old" side for each of its
glasses, because `"" < week_ago_str`). -/
def glassStep (wa : Str) (acc : List Str × Counter) (r : ExtractionRecord) :
    List Str × Counter :=
  let date := recDate r
  (glassesVal r).foldl
    (fun acc g =>
      if ltS date wa then (setAdd acc.1 g, acc.2)
      else if geS date wa then (acc.1, counterAdd acc.2 g)
      else acc)
    acc

def glassScan (records : List ExtractionRecord) (wa : Str) : List Str × Counter :=
  records.foldl (glassStep wa) ([], [])

def emergingGlass (records : List ExtractionRecord) (wa : Str) : Counter :=
  let scan := glassScan records wa
  scan.2.filter (fun p => !(scan.1.contains p.1))

def newGlassDigests (records : List ExtractionRecord) (clock : Clock) : List Digest :=
  let eg := emergingGlass records clock.weekAgo
  if eg.isEmpty then []
  else
    let sorted_eg := (stableSort (fun a b => decide (b.2 < a.2)) eg).take 10
    let eg_lines := intercalateS (str ", ")
      (sorted_eg.map (fun p => p.1 ++ str " (" ++ natToStr p.2 ++ str "x)"))
    [{ text := str "[INTELLIGENCE] New glass types this week (not seen before): " ++ eg_lines
       type := str "new_glass_types"
       timestamp := clock.iso }]

/-- Section 10: per-client glass sets before / since `week_ago_str`
(again, a record with no date contributes to the "old" side). -/
def clientGlassStep (wa : Str) (acc : GlassSets × GlassSets) (r : ExtractionRecord) :
    GlassSets × GlassSets :=
  let date := recDate r
  match clientVal r with
  | none => acc
  | some client =>
    let glasses := dedupS (glassesVal r)
    if ltS date wa then (dsetUpdate acc.1 client glasses, acc.2)
    else if geS date wa then (acc.1, dsetUpdate acc.2 client glasses)
    else acc

def clientGlassScan (records : List ExtractionRecord) (wa : Str) :
    GlassSets × GlassSets :=
  records.foldl (clientGlassStep wa) ([], [])

def diversifying (records : List ExtractionRecord) (wa : Str) : List (Str × List Str) :=
  let scan := clientGlassScan records wa
  scan.2.filterMap (fun p =>
    match scan.1.find? (fun q => q.1 == p.1) with
    | none => none
    | some q =>
      let new_types := p.2.filter (fun g => !q.2.contains g)
      if new_types.isEmpty then none else some (p.1, new_types))

def productDiversificationDigests (records : List ExtractionRecord) (clock : Clock) :
    List Digest :=
  let div := diversifying records clock.weekAgo
  if div.isEmpty then []
  else
    let divSorted := stableSort (fun a b => decide (b.2.length < a.2.length)) div
    let div_lines := intercalateS (str ", ")
      ((divSorted.take 10).map (fun p =>
        p.1 ++ str " (+" ++ intercalateS (str ", ") (p.2.take 3) ++ str ")"))
    [{ text := str "[INTELLIGENCE] Clients ordering new product types this week: " ++
         div_lines ++ str " | " ++ natToStr div.length ++ str " clients diversifying"
       type := str "product_diversification"
       timestamp := clock.iso }]

/-- Section 11: low-confidence counters (`conf is not None and conf < 0.7`;
the factory counter is accumulated but the source never emits it). -/
def lowConfScan (records : List ExtractionRecord) : Counter × Counter :=
  records.foldl
    (fun acc r =>
      match r.confidence with
      | none => acc
      | some conf =>
        if conf.lt ⟨7, 10⟩ then
          let acc1 := match clientVal r with
            | some c => counterAdd acc.1 c
            | none => acc.1
          let acc2 := match factoryVal r with
            | some f => counterAdd acc.2 f
            | none => acc.2
          (acc1, acc2)
        else acc)
    ([], [])

def lowConfDigests (records : List ExtractionRecord) (clock : Clock) : List Digest :=
  let low := (lowConfScan records).1
  if low.isEmpty then []
  else
    let top_low := mostCommon low 10
    let low_lines := intercalateS (str ", ")
      (top_low.map (fun p => p.1 ++ str " (" ++ natToStr p.2 ++ str " low-conf)"))
    [{ text := str "[INTELLIGENCE] Clients with most low-confidence matches (<70%): " ++
         low_lines ++ str " | These may need synonym additions on Snake"
       type := str "low_confidence_hotspots"
       timestamp := clock.iso }]

/-- Section 12: factory counters per window (no missing-date guard here: an
empty date fails both window tests, so such records are excluded). -/
def factoryWindowStep (twa wa : Str) (acc : Counter × Counter) (r : ExtractionRecord) :
    Counter × Counter :=
  let date := recDate r
  let factory := factoryOrUnknown r
  if leS twa date && ltS date wa then (counterAdd acc.1 factory, acc.2)
  else if geS date wa then (acc.1, counterAdd acc.2 factory)
  else acc

def factoryWindowScan (records : List ExtractionRecord) (twa wa : Str) :
    Counter × Counter :=
  records.foldl (factoryWindowStep twa wa) ([], [])

def factoryPct (c : Counter) (f : Str) (tot : Nat) : Frac :=
  ((Frac.ofNat (counterGet c f)).div (Frac.ofNat tot)).mul ⟨100, 1⟩

def factoryShifts (records : List ExtractionRecord) (twa wa : Str) :
    List (Str × Frac × Frac) :=
  let scan := factoryWindowScan records twa wa
  let prev_total := let s := counterTotal scan.1; if s = 0 then 1 else s
  let curr_total := let s := counterTotal scan.2; if s = 0 then 1 else s
  (dedupS (counterKeys scan.1 ++ counterKeys scan.2)).filterMap (fun f =>
    let prev_pct := factoryPct scan.1 f prev_total
    let curr_pct := factoryPct scan.2 f curr_total
    if (Frac.mk 5 1).lt (curr_pct.sub prev_pct).abs then some (f, prev_pct, curr_pct)
    else none)

def factoryShiftsDigests (records : List ExtractionRecord) (clock : Clock) : List Digest :=
  let shifts := factoryShifts records clock.twoWeeksAgo clock.weekAgo
  if shifts.isEmpty then []
  else
    let sorted := stableSort
      (fun a b => (b.2.2.sub b.2.1).abs.lt (a.2.2.sub a.2.1).abs) shifts
    let shift_lines := intercalateS (str ", ")
      (sorted.map (fun p => p.1 ++ str " (" ++ fmt0 p.2.1 ++ str "%→" ++
        fmt0 p.2.2 ++ str "%)"))
    [{ text := str "[INTELLIGENCE] Factory volume share shifts (>5pt change): " ++ shift_lines
       type := str "factory_shifts"
       timestamp := clock.iso }]

/-!  `compute_digests` itself. -/

/-- `[m for m in memories if "extraction" in m.get("tags", [])]`. -/
def extractionsOf (mems : List MemoryEntry) : List MemoryEntry :=
  mems.filter (fun m => m.tags.contains (str "extraction"))

/-- The digest list a non-empty run produces, in source order. -/
def buildDigests (extractions : List MemoryEntry) (clock : Clock) : List Digest :=
  let records := extractions.map parseRecord
  [overallDigest records clock] ++
  topClientsDigests records clock ++
  dailyVolumeDigests records clock ++
  glassTypesDigests records clock ++
  [matchingQualityDigest records clock] ++
  weeklyClientsDigests records clock ++
  newClientsDigests records clock ++
  volumeSpikesDigests records clock ++
  volumeDropsDigests records clock ++
  newGlassDigests records clock ++
  productDiversificationDigests records clock ++
  lowConfDigests records clock ++
  factoryShiftsDigests records clock

/-- `compute_digests()`, with the persistence effect made explicit: the
first component is the returned list, the second the content of
`digests.json` after the call (`storedDigests` being its content before).
When no memory carries the `"extraction"` tag the source returns `[]`
at line 179 without reaching `save_digests` at line 531, so the stored
collection is left as it was; otherwise the computed list replaces it
wholesale. -/
def compute_digests (mems : List MemoryEntry) (clock : Clock)
    (storedDigests : List Digest) : List Digest × List Digest :=
  let extractions := extractionsOf mems
  if extractions.isEmpty then ([], storedDigests)
  else
    let digests := buildDigests extractions clock
    (digests, digests)

/-!  Specification-side definitions (used only to compare against the
embedded code). -/

/-- The score as the specification words it: (number of query tokens that
are substrings of the lowercased text) plus twice (number of tokens equal
to some lowercased tag). -/
def specScore (tokens : List Str) (m : MemoryEntry) : Nat :=
  tokens.countP (fun t => containsSubS (lowerS m.text) t) +
    2 * tokens.countP (fun t => (m.tags.map lowerS).contains t)

/-- `search_memories` as the specification describes it: score by
`specScore`, exclude zero scores, stable-sort by score descending (ties
keep original collection order), return the first `limit`. -/
def search_memories_spec (mems : List MemoryEntry) (query : Str) (limit : Nat) :
    List MemoryEntry :=
  let tokens := splitWsS (lowerS query)
  let kept := mems.filterMap (fun m =>
    if 0 < specScore tokens m then some (specScore tokens m, m) else none)
  ((stableSort (fun a b => decide (b.1 < a.1)) kept).take limit).map (fun p => p.2)

/-- Erase the run timestamp of a digest (used to compare the outputs of two
runs up to their embedded clock readings). -/
def stripTime (d : Digest) : Digest := { d with timestamp := [] }

/-- The last 200 elements of a list (`xs[-200:]`, a no-op on shorter
lists). -/
def takeLast200 (l : List ConversationEntry) : List ConversationEntry :=
  l.drop (l.length - 200)

def toConvEntry (c : Str × Str × Str) : ConversationEntry :=
  { user := c.1, assistant := c.2.1, timestamp := c.2.2 }

/-- A sequence of `save_conversation` calls, replayed in order. -/
def saveRun (convos : List ConversationEntry) (calls : List (Str × Str × Str)) :
    List ConversationEntry :=
  calls.foldl (fun cs c => save_conversation cs c.1 c.2.1 c.2.2) convos

/-!  Concrete fixtures for counterexamples and witnesses. -/

/-- A memory with no `"extraction"` tag. -/
def noteMem : MemoryEntry := { text := str "remember the meeting", tags := [str "note"] }

/-- A digest left over from an earlier run. -/
def staleDigest : Digest :=
  { text := str "[DIGEST] stale", type := str "overall", timestamp := str "2025-01-01T00:00:00" }

/-- A clock reading, and a second reading one microsecond later (same UTC
date, hence the same week boundaries). -/
def clkA : Clock :=
  { iso := str "2026-01-12T08:00:00.000001", weekAgo := str "2026-01-05",
    twoWeeksAgo := str "2025-12-29" }

def clkB : Clock :=
  { iso := str "2026-01-12T08:00:00.000002", weekAgo := str "2026-01-05",
    twoWeeksAgo := str "2025-12-29" }

/-- One well-formed extraction memory dated inside `clkA`'s current week. -/
def c4mem : MemoryEntry :=
  { text := str "ext_id=1 | [FactoryA] | status=verified | client=Acme (tier 1, exact) | 2 line(s) | glass: Planilux | conf=92% | created=2026-01-08"
    timestamp := str "2026-01-08T10:00:00"
    tags := [str "extraction", str "verified", str "FactoryA"] }

/-- The exact example text of the specification (factory and status share
one pipe segment). -/
def c2text : Str :=
  str "ext_id=42 | [FactoryA] status=verified | client=Dupont (tier 1, exact) | 3 line(s) | glass: Planilux, Securit | conf=92% | created=2024-05-01"

def c2mem : MemoryEntry := { text := c2text, tags := [str "extraction"] }

/-- The same data with factory and status as separate pipe segments — the
shape `ingest._summarize_extraction` actually emits. -/
def c2textSeparated : Str :=
  str "ext_id=42 | [FactoryA] | status=verified | client=Dupont (tier 1, exact) | 3 line(s) | glass: Planilux, Securit | conf=92% | created=2024-05-01"

def c2memSeparated : MemoryEntry := { text := c2textSeparated, tags := [str "extraction"] }

/-- An extraction memory whose text carries no `created=` segment. -/
def c3datelessMem : MemoryEntry :=
  { text := str "ext_id=7 | client=X (tier 1, exact)", tags := [str "extraction"] }

/-- Same client, dated inside the current week of `clkA`. -/
def c3datedMem : MemoryEntry :=
  { text := str "ext_id=8 | client=X (tier 1, exact) | created=2026-01-08", tags := [str "extraction"] }

def c3records : List ExtractionRecord := [parseRecord c3datelessMem, parseRecord c3datedMem]

def c3wa : Str := str "2026-01-05"

/-- Week counters matching the end-to-end example of the specification:
client BETA with 3 prior-week and 9 current-week records. -/
def c5prev : Counter := [(str "BETA", 3)]

def c5curr : Counter := [(str "BETA", 9)]

def c7mems : List MemoryEntry :=
  [{ text := str "Meeting with ACME tomorrow" },
   { text := str "acme invoice overdue" },
   { text := str "call Bob" }]

def c8mems : List MemoryEntry :=
  [{ text := str "alpha report", tags := [str "beta"] },
   { text := str "gamma notes" },
   { text := str "alpha beta ALPHA" }]

/-!  General helper lemmas. -/

theorem length_sub_filter_not (p : α → Bool) (l : List α) :
    l.length - (l.filter (fun a => !(p a))).length = (l.filter p).length := by
  induction l with
  | nil => rfl
  | cons a l ih =>
    have hle := List.length_filter_le (fun a => !(p a)) l
    cases h : p a <;> simp [List.filter_cons, h] <;> omega

theorem containsSubS_nil (hay : Str) : containsSubS hay [] = true := by
  cases hay <;> simp [containsSubS, List.isPrefixOf]

/-!  C9 and C10. -/

/-- C9: `load_memories` returns the empty sequence when no underlying
store exists (absence is not an error), while a malformed store surfaces
an error to the caller and never yields a collection. -/
theorem C9_load_memories_absent_vs_corrupt :
    load_memories StoreFile.absent = Except.ok [] ∧
    (∀ e, load_memories (StoreFile.corrupt e) = Except.error e) ∧
    (∀ e, (load_memories (StoreFile.corrupt e)).toOption = none) :=
  ⟨rfl, fun _ => rfl, fun _ => rfl⟩

/-- C10: `forget` with the empty query removes every stored entry — the
empty string is a substring of every text — returning the previous total
count and leaving the persisted collection empty. -/
theorem C10_forget_empty_query (mems : List MemoryEntry) :
    (forget mems (str "")).1 = mems.length ∧ (forget mems (str "")).2 = [] := by
  have hnil : mems.filter (forgetKeeps (str "")) = [] := by
    rw [List.filter_eq_nil_iff]
    intro m _
    simp [forgetKeeps, str, lowerS, containsSubS_nil]
  simp only [forget, hnil]
  cases mems with
  | nil => simp
  | cons a l => simp

/-!  C7. -/

/-- C7: `forget(query)` removes exactly the entries whose text contains
the query as a case-insensitive substring, returns the number removed,
keeps the remaining entries in their original relative order (the result
is a sublist of the input), and leaves the persisted collection untouched
when that number is zero. -/
theorem C7_forget_spec (mems : List MemoryEntry) (q : Str) :
    (forget mems q).1 =
      (mems.filter (fun m => containsSubS (lowerS m.text) (lowerS q))).length ∧
    ((forget mems q).1 = 0 → (forget mems q).2 = mems) ∧
    (0 < (forget mems q).1 → (forget mems q).2 =
      mems.filter (fun m => !(containsSubS (lowerS m.text) (lowerS q)))) ∧
    List.Sublist (forget mems q).2 mems := by
  have hkeep : forgetKeeps q =
      fun m => !(containsSubS (lowerS m.text) (lowerS q)) := by
    funext m; rfl
  have hcount := length_sub_filter_not
    (fun m : MemoryEntry => containsSubS (lowerS m.text) (lowerS q)) mems
  refine ⟨?_, ?_, ?_, ?_⟩
  · simp only [forget, hkeep]
    exact hcount
  · intro h
    simp only [forget, hkeep] at h ⊢
    simp [Nat.not_lt_of_le (Nat.le_of_eq h.symm), h]
  · intro h
    simp only [forget, hkeep] at h ⊢
    simp [h]
  · simp only [forget, hkeep]
    by_cases h : 0 < mems.length -
        (mems.filter (fun m => !(containsSubS (lowerS m.text) (lowerS q)))).length
    · simp only [h, if_true, gt_iff_lt]
      exact List.filter_sublist mems
    · simp [h]

/-- Witness for C7 at a concrete store: the query `"ACME"` removes the two
entries containing it case-insensitively and persists the remainder, while
a query matching nothing leaves the store untouched. -/
theorem C7_forget_spec_witness :
    (forget c7mems (str "ACME")).1 = 2 ∧
    (forget c7mems (str "ACME")).2 = [{ text := str "call Bob" }] ∧
    (forget c7mems (str "zzz")).2 = c7mems :=
  ⟨(C7_forget_spec c7mems (str "ACME")).1.trans (by decide),
   ((C7_forget_spec c7mems (str "ACME")).2.2.1 (by decide)).trans (by decide),
   (C7_forget_spec c7mems (str "zzz")).2.1 (by decide)⟩

/-!  C6. -/

theorem save_conversation_takeLast (cs : List ConversationEntry) (u a t : Str) :
    save_conversation cs u a t =
      takeLast200 (cs ++ [{ user := u, assistant := a, timestamp := t }]) := by
  simp only [save_conversation, takeLast200]
  split
  · rfl
  · rename_i h
    rw [Nat.sub_eq_zero_of_le (Nat.le_of_not_lt h), List.drop_zero]

theorem takeLast200_append_absorb (l es : List ConversationEntry) :
    takeLast200 (takeLast200 l ++ es) = takeLast200 (l ++ es) := by
  simp only [takeLast200]
  have hk : l.length - 200 ≤ l.length := Nat.sub_le _ _
  rw [← List.drop_append_of_le_length hk, List.drop_drop]
  congr 1
  simp only [List.length_drop, List.length_append]
  omega

theorem saveRun_cons_eq (init : List ConversationEntry) (c : Str × Str × Str)
    (cs : List (Str × Str × Str)) :
    saveRun init (c :: cs) = takeLast200 (init ++ (c :: cs).map toConvEntry) := by
  induction cs generalizing init c with
  | nil =>
    simp only [saveRun, List.foldl_cons, List.foldl_nil, List.map_cons, List.map_nil]
    exact save_conversation_takeLast init c.1 c.2.1 c.2.2
  | cons c2 cs2 ih =>
    have hstep : saveRun init (c :: c2 :: cs2) =
        saveRun (save_conversation init c.1 c.2.1 c.2.2) (c2 :: cs2) := rfl
    rw [hstep, ih, save_conversation_takeLast, takeLast200_append_absorb]
    congr 1
    simp [toConvEntry, List.append_assoc]

/-- C6: replaying any non-empty sequence of `save_conversation` calls from
any starting collection leaves at most 200 entries, and the persisted
entries are exactly the tail (most recent end) of the full history —
oldest evicted first. -/
theorem C6_conversation_cap (init : List ConversationEntry)
    (calls : List (Str × Str × Str)) (h : calls ≠ []) :
    (saveRun init calls).length ≤ 200 ∧
    saveRun init calls = takeLast200 (init ++ calls.map toConvEntry) := by
  obtain ⟨c, cs, rfl⟩ : ∃ c cs, calls = c :: cs := by
    cases calls with
    | nil => exact absurd rfl h
    | cons c cs => exact ⟨c, cs, rfl⟩
  refine ⟨?_, saveRun_cons_eq init c cs⟩
  rw [saveRun_cons_eq]
  simp only [takeLast200, List.length_drop]
  omega

/-- Witness for C6: one call on a one-entry store retains both entries in
order (well under the cap). -/
theorem C6_conversation_cap_witness :
    (saveRun [{ user := str "u0", assistant := str "a0", timestamp := str "t0" }]
        [(str "u1", str "a1", str "t1")]).length ≤ 200 ∧
    saveRun [{ user := str "u0", assistant := str "a0", timestamp := str "t0" }]
        [(str "u1", str "a1", str "t1")] =
      [{ user := str "u0", assistant := str "a0", timestamp := str "t0" },
       { user := str "u1", assistant := str "a1", timestamp := str "t1" }] := by
  have h := C6_conversation_cap
    [{ user := str "u0", assistant := str "a0", timestamp := str "t0" }]
    [(str "u1", str "a1", str "t1")] (by decide)
  exact ⟨h.1, h.2.trans (by decide)⟩

/-!  C1. -/

/-- C1 counterexample: with one stored memory carrying no `"extraction"`
tag and a stale digest in the store, `compute_digests` returns the empty
sequence but the persisted digest collection still holds the stale digest
— the early `return []` at line 179 never reaches `save_digests`, contrary
to the claim that the empty sequence replaces the stored collection. -/
theorem C1_counterexample :
    compute_digests [noteMem] clkA [staleDigest] = ([], [staleDigest]) ∧
    ([staleDigest] : List Digest) ≠ [] :=
  ⟨by decide, by decide⟩

/-- C1 amended: when no stored memory is tagged `"extraction"`,
`compute_digests` returns the empty digest sequence and leaves the
persisted digest collection exactly as it was (no replace happens, so
stale digests from a prior run do survive). -/
theorem C1_amended (mems : List MemoryEntry) (clock : Clock) (stored : List Digest)
    (h : ∀ m ∈ mems, (str "extraction") ∉ m.tags) :
    compute_digests mems clock stored = ([], stored) := by
  have hext : extractionsOf mems = [] := by
    rw [extractionsOf, List.filter_eq_nil_iff]
    intro m hm
    simp [h m hm]
  simp [compute_digests, hext]

/-- Witness for C1 amended at the concrete store of the counterexample. -/
theorem C1_amended_witness :
    compute_digests [noteMem] clkA [staleDigest] = ([], [staleDigest]) :=
  C1_amended [noteMem] clkA [staleDigest] (by decide)

/-!  C2. -/

/-- C2 counterexample: decoding the specification's exact example text
(tag `"extraction"`) leaves `factory` and `status` unset, because
`"[FactoryA] status=verified"` is a single pipe segment that starts with
`[` but neither ends with `]` nor contains `(`, and does not start with
`status=` — so it matches no parse branch; the claimed
`factory="FactoryA"`, `status="verified"` decode is false. -/
theorem C2_counterexample :
    (parseRecord c2mem).factory = none ∧
    (parseRecord c2mem).status = none ∧
    (parseRecord c2mem).factory ≠ some (str "FactoryA") ∧
    (parseRecord c2mem).status ≠ some (str "verified") :=
  ⟨by decide, by decide, by decide, by decide⟩

/-- C2 amended: on the example text the decoder yields
`client="Dupont"`, `lines=3`, `glasses=["Planilux","Securit"]`,
`confidence=92/100` and `created_date="2024-05-01"` but no factory and no
status; with factory and status as separate pipe segments (the shape the
ingest encoder emits) the full claimed record is produced. -/
theorem C2_amended_decode :
    parseRecord c2mem =
      { text := c2text, tags := [str "extraction"], timestamp := []
        client := some (str "Dupont"), lines := some 3
        glasses := some [str "Planilux", str "Securit"]
        confidence := some ⟨92, 100⟩
        created_date := some (str "2024-05-01") } ∧
    parseRecord c2memSeparated =
      { text := c2textSeparated, tags := [str "extraction"], timestamp := []
        factory := some (str "FactoryA"), status := some (str "verified")
        client := some (str "Dupont"), lines := some 3
        glasses := some [str "Planilux", str "Securit"]
        confidence := some ⟨92, 100⟩
        created_date := some (str "2024-05-01") } :=
  ⟨by decide, by decide⟩

/-!  C5. -/

/-- C5: no client ever appears in both the spike list and the drop list of
one run — the drop branch sits behind `elif`, and the two threshold
predicates are already disjoint on their own (`curr ≥ 2·prev ≥ 6` excludes
`curr ≤ 0.3·prev`). -/
theorem C5_spike_drop_exclusive :
    (∀ prevC currC c, c ∈ (spikesOf prevC currC).map (fun s => s.1) →
      c ∉ (dropsOf prevC currC).map (fun s => s.1)) ∧
    (∀ prev curr : Nat, (spikeCond prev curr && dropCond prev curr) = false) := by
  constructor
  · intro prevC currC c hs hd
    simp only [spikesOf, dropsOf, List.mem_map, List.mem_filterMap,
      Option.ite_none_right_eq_some] at hs hd
    obtain ⟨s, ⟨x, hx, hcond1, heq1⟩, hxc⟩ := hs
    obtain ⟨d, ⟨y, hy, hcond2, heq2⟩, hyc⟩ := hd
    injection heq1 with heq1
    injection heq2 with heq2
    subst heq1
    subst heq2
    dsimp only at hxc hyc
    subst hxc
    subst hyc
    simp [hcond1] at hcond2
  · intro prev curr
    by_cases h1 : 3 ≤ prev <;> by_cases h2 : prev * 2 ≤ curr <;>
      by_cases h3 : 10 * curr ≤ 3 * prev <;>
      simp [spikeCond, dropCond, h1, h2, h3]
    all_goals omega

/-- Witness for C5 at the specification's own end-to-end example
(`prev=3, curr=9` for client BETA): BETA is reported as a spike and, by
the theorem, cannot be reported as a drop. -/
theorem C5_spike_drop_exclusive_witness :
    spikesOf c5prev c5curr = [(str "BETA", 3, 9)] ∧
    str "BETA" ∉ (dropsOf c5prev c5curr).map (fun s => s.1) :=
  ⟨by decide, C5_spike_drop_exclusive.1 c5prev c5curr (str "BETA") (by decide)⟩

/-!  C3. -/

theorem mem_setAdd_self (s : List Str) (g : Str) : g ∈ setAdd s g := by
  unfold setAdd
  split
  · rename_i hc
    exact List.elem_iff.mp hc
  · exact List.mem_append_right _ (by simp)

theorem mem_setAdd_of_mem (s : List Str) (a g : Str) (h : g ∈ s) : g ∈ setAdd s a := by
  unfold setAdd
  split
  · exact h
  · exact List.mem_append_left _ h

theorem mem_foldl_setAdd_of_mem (l s : List Str) (g : Str) (h : g ∈ s) :
    g ∈ l.foldl setAdd s := by
  induction l generalizing s with
  | nil => exact h
  | cons a l ih => exact ih _ (mem_setAdd_of_mem s a g h)

theorem mem_foldl_setAdd (l s : List Str) (g : Str) (h : g ∈ l) :
    g ∈ l.foldl setAdd s := by
  induction l generalizing s with
  | nil => cases h
  | cons a l ih =>
    rcases List.mem_cons.mp h with rfl | hmem
    · exact mem_foldl_setAdd_of_mem l _ g (mem_setAdd_self s g)
    · exact ih _ hmem

theorem foldl_setAdd_pair (l : List Str) (acc : List Str × Counter) :
    l.foldl (fun acc g => (setAdd acc.1 g, acc.2)) acc = (l.foldl setAdd acc.1, acc.2) := by
  induction l generalizing acc with
  | nil => rfl
  | cons g l ih => simp [List.foldl_cons, ih]

/-- C3 counterexample: a record with no `created=` segment (client X) IS
counted toward the pre-`week_ago` old-client set, and its presence
suppresses the `new_clients` digest that the same store without it would
produce — contradicting the claim that a record without a parsed date
contributes to none of the date-windowed digests. -/
theorem C3_counterexample :
    (parseRecord c3datelessMem).created_date = none ∧
    str "X" ∈ (newClientsScan c3records c3wa).1 ∧
    emergingClients c3records c3wa = [] ∧
    emergingClients [parseRecord c3datedMem] c3wa = [(str "X", 1)] ∧
    newClientsDigests c3records clkA = [] ∧
    newClientsDigests [parseRecord c3datedMem] clkA ≠ [] :=
  ⟨by decide, by decide, by decide, by decide, by decide, by decide⟩

/-- C3 amended: a record with no parsed `created_date` (date reads `""`)
is excluded from the daily-volume counter, the weekly window, the
spike/drop windows and the factory-shift windows, and from the
current-week sides of the new-clients, new-glass-types and
diversification scans — but it IS counted toward the pre-`week_ago` "old"
sets of those three scans (its client joins `old_clients`, each of its
glasses joins `old_glasses`, and its glass set joins the client's old
glass dict), because the empty date-string compares below every real
date. -/
theorem C3_amended (r : ExtractionRecord) (wa twa : Str)
    (hd : r.created_date = none) (hwa : ltS [] wa = true) (htwa : ltS [] twa = true) :
    (∀ d, dailyStep d r = d) ∧
    (∀ acc, weeklyStep wa acc r = acc) ∧
    (∀ acc, weekWindowStep twa wa acc r = acc) ∧
    (∀ acc, factoryWindowStep twa wa acc r = acc) ∧
    (∀ acc c, clientVal r = some c →
      (newClientsStep wa acc r).2 = acc.2 ∧ c ∈ (newClientsStep wa acc r).1) ∧
    (∀ acc, (glassStep wa acc r).2 = acc.2 ∧
      ∀ g ∈ glassesVal r, g ∈ (glassStep wa acc r).1) ∧
    (∀ acc c, clientVal r = some c →
      (clientGlassStep wa acc r).2 = acc.2 ∧
      (clientGlassStep wa acc r).1 = dsetUpdate acc.1 c (dedupS (glassesVal r))) := by
  have hdate : recDate r = [] := by simp [recDate, hd]
  have hge : geS [] wa = false := by simp [geS, hwa]
  have hle : leS twa [] = false := by simp [leS, htwa]
  refine ⟨?_, ?_, ?_, ?_, ?_, ?_, ?_⟩
  · intro d
    simp [dailyStep, hdate]
  · intro acc
    simp [weeklyStep, hdate, hge]
  · intro acc
    cases hc : clientVal r with
    | none => simp [weekWindowStep, hc]
    | some c => simp [weekWindowStep, hc, hdate]
  · intro acc
    simp [factoryWindowStep, hdate, hle, hge]
  · intro acc c hc
    refine ⟨?_, ?_⟩
    · simp [newClientsStep, hdate, hc, hwa]
    · simp [newClientsStep, hdate, hc, hwa, mem_setAdd_self]
  · intro acc
    refine ⟨?_, ?_⟩
    · simp [glassStep, hdate, hwa, foldl_setAdd_pair]
    · intro g hg
      simp [glassStep, hdate, hwa, foldl_setAdd_pair]
      exact mem_foldl_setAdd _ _ _ hg
  · intro acc c hc
    exact ⟨by simp [clientGlassStep, hdate, hc, hwa],
      by simp [clientGlassStep, hdate, hc, hwa]⟩

/-- Witness for C3 amended at the concrete dateless record: it leaves a
daily counter unchanged and its client X lands in the old-client set. -/
theorem C3_amended_witness :
    dailyStep [(str "2026-01-08", 1)] (parseRecord c3datelessMem) =
      [(str "2026-01-08", 1)] ∧
    str "X" ∈ (newClientsStep c3wa ([], []) (parseRecord c3datelessMem)).1 := by
  have h := C3_amended (parseRecord c3datelessMem) c3wa (str "2025-12-29")
    (by decide) (by decide) (by decide)
  exact ⟨h.1 _, (h.2.2.2.2.1 ([], []) (str "X") (by decide)).2⟩

/-!  C8. -/

theorem score_foldl (text : Str) (tags : List Str) (tokens : List Str) (s : Nat) :
    tokens.foldl
      (fun score token =>
        let score := if containsSubS text token then score + 1 else score
        if tags.contains token then score + 2 else score)
      s =
    s + tokens.countP (fun t => containsSubS text t) +
      2 * tokens.countP (fun t => tags.contains t) := by
  induction tokens generalizing s with
  | nil => simp
  | cons t ts ih =>
    simp only [List.foldl_cons, List.countP_cons]
    rw [ih]
    by_cases h1 : containsSubS text t <;> by_cases h2 : t ∈ tags <;>
      simp [h1, h2]
    all_goals omega

/-- The imperative score loop computes exactly the specification's score
formula. -/
theorem scoreEntry_eq_specScore (tokens : List Str) (m : MemoryEntry) :
    scoreEntry tokens m = specScore tokens m := by
  simp only [scoreEntry, specScore]
  rw [score_foldl]
  omega

theorem mem_stableInsert (gt : α → α → Bool) (x a : α) (l : List α) :
    a ∈ stableInsert gt x l ↔ a = x ∨ a ∈ l := by
  induction l with
  | nil => simp [stableInsert]
  | cons y ys ih =>
    unfold stableInsert
    split
    · simp only [List.mem_cons, ih]
      tauto
    · simp only [List.mem_cons]

theorem mem_stableSort (gt : α → α → Bool) (a : α) (l : List α) :
    a ∈ stableSort gt l ↔ a ∈ l := by
  induction l with
  | nil => simp [stableSort]
  | cons x xs ih =>
    show a ∈ stableInsert gt x (stableSort gt xs) ↔ _
    rw [mem_stableInsert]
    simp [ih]

theorem pairwise_stableInsert_keyDesc (key : α → Nat) (x : α) (l : List α)
    (h : l.Pairwise (fun a b => key b ≤ key a)) :
    (stableInsert (fun a b => decide (key b < key a)) x l).Pairwise
      (fun a b => key b ≤ key a) := by
  induction l with
  | nil => simp [stableInsert]
  | cons y ys ih =>
    rw [List.pairwise_cons] at h
    obtain ⟨hy, hys⟩ := h
    unfold stableInsert
    split
    · rename_i hgt
      rw [List.pairwise_cons]
      refine ⟨?_, ih hys⟩
      intro b hb
      rw [mem_stableInsert] at hb
      rcases hb with rfl | hb
      · exact Nat.le_of_lt (of_decide_eq_true hgt)
      · exact hy b hb
    · rename_i hgt
      have hxy : key y ≤ key x := Nat.le_of_not_lt (by simpa using hgt)
      rw [List.pairwise_cons]
      refine ⟨?_, List.pairwise_cons.mpr ⟨hy, hys⟩⟩
      intro b hb
      rcases List.mem_cons.mp hb with rfl | hb
      · exact hxy
      · exact Nat.le_trans (hy b hb) hxy

theorem pairwise_stableSort_keyDesc (key : α → Nat) (l : List α) :
    (stableSort (fun a b => decide (key b < key a)) l).Pairwise
      (fun a b => key b ≤ key a) := by
  induction l with
  | nil => simp [stableSort]
  | cons x xs ih => exact pairwise_stableInsert_keyDesc key x _ ih

theorem mem_kept (tokens : List Str) (mems : List MemoryEntry) (p : Nat × MemoryEntry)
    (hp : p ∈ mems.filterMap (fun m =>
      if 0 < specScore tokens m then some (specScore tokens m, m) else none)) :
    p.1 = specScore tokens p.2 ∧ 0 < p.1 := by
  rw [List.mem_filterMap] at hp
  obtain ⟨m, _, hpm⟩ := hp
  split at hpm
  · rename_i hpos
    injection hpm with hpm
    subst hpm
    exact ⟨rfl, hpos⟩
  · cases hpm

/-- C8: `search_memories` coincides with the specification's description
(score each entry by token-substring hits plus twice the exact-tag hits,
drop zero scores, stable-sort descending, return the first `limit`); in
addition the result never exceeds `limit` entries and is ordered by
non-increasing score. -/
theorem C8_search_spec (mems : List MemoryEntry) (q : Str) (limit : Nat) :
    search_memories mems q limit = search_memories_spec mems q limit ∧
    (search_memories mems q limit).length ≤ limit ∧
    (search_memories mems q limit).Pairwise
      (fun m1 m2 => specScore (splitWsS (lowerS q)) m2 ≤
        specScore (splitWsS (lowerS q)) m1) := by
  have hfn : (fun m : MemoryEntry =>
      if 0 < scoreEntry (splitWsS (lowerS q)) m
      then some (scoreEntry (splitWsS (lowerS q)) m, m) else none) =
      (fun m => if 0 < specScore (splitWsS (lowerS q)) m
      then some (specScore (splitWsS (lowerS q)) m, m) else none) := by
    funext m
    rw [scoreEntry_eq_specScore]
  have heq : search_memories mems q limit = search_memories_spec mems q limit := by
    simp only [search_memories, search_memories_spec]
    rw [hfn]
  refine ⟨heq, ?_, ?_⟩
  · rw [heq]
    simp only [search_memories_spec, List.length_map]
    exact List.length_take_le _ _
  · rw [heq]
    simp only [search_memories_spec]
    rw [List.pairwise_map]
    apply List.Pairwise.sublist (List.take_sublist _ _)
    apply List.Pairwise.imp_of_mem ?_
      (pairwise_stableSort_keyDesc (fun p : Nat × MemoryEntry => p.1) _)
    intro a b ha hb hle
    rw [mem_stableSort] at ha hb
    have ha2 := mem_kept _ _ _ ha
    have hb2 := mem_kept _ _ _ hb
    rw [← ha2.1, ← hb2.1]
    exact hle

/-- Witness for C8 at a concrete store: `"alpha beta"` scores the
tag-matching entry 3 (one substring + one tag), the double-substring entry
2, drops the unrelated entry, and returns them in score order. -/
theorem C8_search_spec_witness :
    search_memories c8mems (str "alpha beta") 2 =
      [{ text := str "alpha report", tags := [str "beta"] },
       { text := str "alpha beta ALPHA" }] ∧
    (search_memories c8mems (str "alpha beta") 2).length ≤ 2 :=
  ⟨(C8_search_spec c8mems (str "alpha beta") 2).1.trans (by decide),
   (C8_search_spec c8mems (str "alpha beta") 2).2.1⟩

/-!  C4. -/

theorem overall_stripTime (records : List ExtractionRecord) (i1 i2 wa twa : Str) :
    stripTime (overallDigest records ⟨i1, wa, twa⟩) =
    stripTime (overallDigest records ⟨i2, wa, twa⟩) := rfl

theorem matching_stripTime (records : List ExtractionRecord) (i1 i2 wa twa : Str) :
    stripTime (matchingQualityDigest records ⟨i1, wa, twa⟩) =
    stripTime (matchingQualityDigest records ⟨i2, wa, twa⟩) := rfl

theorem topClients_stripTime (records : List ExtractionRecord) (i1 i2 wa twa : Str) :
    (topClientsDigests records ⟨i1, wa, twa⟩).map stripTime =
    (topClientsDigests records ⟨i2, wa, twa⟩).map stripTime := by
  simp only [topClientsDigests, List.map_map]
  congr 1

theorem dailyVolume_stripTime (records : List ExtractionRecord) (i1 i2 wa twa : Str) :
    (dailyVolumeDigests records ⟨i1, wa, twa⟩).map stripTime =
    (dailyVolumeDigests records ⟨i2, wa, twa⟩).map stripTime := by
  simp only [dailyVolumeDigests]
  by_cases h : (daily records).isEmpty <;> simp [h, stripTime]

theorem glassTypes_stripTime (records : List ExtractionRecord) (i1 i2 wa twa : Str) :
    (glassTypesDigests records ⟨i1, wa, twa⟩).map stripTime =
    (glassTypesDigests records ⟨i2, wa, twa⟩).map stripTime := by
  simp only [glassTypesDigests]
  by_cases h : (glass_counter records).isEmpty <;> simp [h, stripTime]

theorem weeklyClients_stripTime (records : List ExtractionRecord) (i1 i2 wa twa : Str) :
    (weeklyClientsDigests records ⟨i1, wa, twa⟩).map stripTime =
    (weeklyClientsDigests records ⟨i2, wa, twa⟩).map stripTime := by
  simp only [weeklyClientsDigests]
  by_cases h : (weeklyScan records wa).1.isEmpty <;> simp [h, stripTime]

theorem newClients_stripTime (records : List ExtractionRecord) (i1 i2 wa twa : Str) :
    (newClientsDigests records ⟨i1, wa, twa⟩).map stripTime =
    (newClientsDigests records ⟨i2, wa, twa⟩).map stripTime := by
  simp only [newClientsDigests]
  by_cases h : (emergingClients records wa).isEmpty <;> simp [h, stripTime]

theorem volumeSpikes_stripTime (records : List ExtractionRecord) (i1 i2 wa twa : Str) :
    (volumeSpikesDigests records ⟨i1, wa, twa⟩).map stripTime =
    (volumeSpikesDigests records ⟨i2, wa, twa⟩).map stripTime := by
  simp only [volumeSpikesDigests]
  by_cases h : (spikesOf (weekWindowScan records twa wa).1
    (weekWindowScan records twa wa).2).isEmpty <;> simp [h, stripTime]

theorem volumeDrops_stripTime (records : List ExtractionRecord) (i1 i2 wa twa : Str) :
    (volumeDropsDigests records ⟨i1, wa, twa⟩).map stripTime =
    (volumeDropsDigests records ⟨i2, wa, twa⟩).map stripTime := by
  simp only [volumeDropsDigests]
  by_cases h : (dropsOf (weekWindowScan records twa wa).1
    (weekWindowScan records twa wa).2).isEmpty <;> simp [h, stripTime]

theorem newGlass_stripTime (records : List ExtractionRecord) (i1 i2 wa twa : Str) :
    (newGlassDigests records ⟨i1, wa, twa⟩).map stripTime =
    (newGlassDigests records ⟨i2, wa, twa⟩).map stripTime := by
  simp only [newGlassDigests]
  by_cases h : (emergingGlass records wa).isEmpty <;> simp [h, stripTime]

theorem productDiversification_stripTime (records : List ExtractionRecord)
    (i1 i2 wa twa : Str) :
    (productDiversificationDigests records ⟨i1, wa, twa⟩).map stripTime =
    (productDiversificationDigests records ⟨i2, wa, twa⟩).map stripTime := by
  simp only [productDiversificationDigests]
  by_cases h : (diversifying records wa).isEmpty <;> simp [h, stripTime]

theorem lowConf_stripTime (records : List ExtractionRecord) (i1 i2 wa twa : Str) :
    (lowConfDigests records ⟨i1, wa, twa⟩).map stripTime =
    (lowConfDigests records ⟨i2, wa, twa⟩).map stripTime := by
  simp only [lowConfDigests]
  by_cases h : (lowConfScan records).1.isEmpty <;> simp [h, stripTime]

theorem factoryShifts_stripTime (records : List ExtractionRecord) (i1 i2 wa twa : Str) :
    (factoryShiftsDigests records ⟨i1, wa, twa⟩).map stripTime =
    (factoryShiftsDigests records ⟨i2, wa, twa⟩).map stripTime := by
  simp only [factoryShiftsDigests]
  by_cases h : (factoryShifts records twa wa).isEmpty <;> simp [h, stripTime]

theorem buildDigests_stripTime (ext : List MemoryEntry) (i1 i2 wa twa : Str) :
    (buildDigests ext ⟨i1, wa, twa⟩).map stripTime =
    (buildDigests ext ⟨i2, wa, twa⟩).map stripTime := by
  simp only [buildDigests, List.map_append, List.map_cons, List.map_nil]
  rw [overall_stripTime (ext.map parseRecord) i1 i2 wa twa,
    matching_stripTime (ext.map parseRecord) i1 i2 wa twa,
    topClients_stripTime (ext.map parseRecord) i1 i2 wa twa,
    dailyVolume_stripTime (ext.map parseRecord) i1 i2 wa twa,
    glassTypes_stripTime (ext.map parseRecord) i1 i2 wa twa,
    weeklyClients_stripTime (ext.map parseRecord) i1 i2 wa twa,
    newClients_stripTime (ext.map parseRecord) i1 i2 wa twa,
    volumeSpikes_stripTime (ext.map parseRecord) i1 i2 wa twa,
    volumeDrops_stripTime (ext.map parseRecord) i1 i2 wa twa,
    newGlass_stripTime (ext.map parseRecord) i1 i2 wa twa,
    productDiversification_stripTime (ext.map parseRecord) i1 i2 wa twa,
    lowConf_stripTime (ext.map parseRecord) i1 i2 wa twa,
    factoryShifts_stripTime (ext.map parseRecord) i1 i2 wa twa]

/-- C4 counterexample: the same single-extraction store computed at two
instants one microsecond apart (same UTC date) yields digest sequences
that are not identical — every digest embeds `now.isoformat()` in its
`timestamp` field — so two successive runs with unchanged memories are not
byte-identical as claimed. -/
theorem C4_counterexample :
    (compute_digests [c4mem] clkA []).1 ≠ (compute_digests [c4mem] clkB []).1 := by
  decide

/-- C4 amended: `compute_digests` is a deterministic pure function of the
stored memories and the clock readings alone — in particular it does not
depend on the previously persisted digests — and two runs whose clock
readings share the same week boundaries (e.g. two runs on the same UTC
date) produce identical digest sequences except for the embedded
`timestamp` fields. -/
theorem C4_amended (mems : List MemoryEntry) (c1 c2 : Clock) (s1 s2 : List Digest)
    (hwa : c1.weekAgo = c2.weekAgo) (htwa : c1.twoWeeksAgo = c2.twoWeeksAgo) :
    ((compute_digests mems c1 s1).1).map stripTime =
    ((compute_digests mems c2 s2).1).map stripTime := by
  obtain ⟨i1, wa1, twa1⟩ := c1
  obtain ⟨i2, wa2, twa2⟩ := c2
  simp only at hwa htwa
  subst hwa
  subst htwa
  simp only [compute_digests]
  by_cases h : (extractionsOf mems).isEmpty
  · rw [if_pos h, if_pos h]
  · rw [if_neg h, if_neg h]
    exact buildDigests_stripTime (extractionsOf mems) i1 i2 wa1 twa1

/-- Witness for C4 amended at the counterexample's two clock readings:
up to timestamps the two runs agree. -/
theorem C4_amended_witness :
    ((compute_digests [c4mem] clkA []).1).map stripTime =
    ((compute_digests [c4mem] clkB []).1).map stripTime :=
  C4_amended [c4mem] clkA clkB [] [] rfl rfl

end Concierge
